import Mathlib

/-
Verification of the image-to-PDF bot's session and assembly logic.

The development shallowly embeds the logic of the repository's sources:
the main variant `src/index.js` (session store with TTL sweep, capacity-
gated ingestion, chunk-streaming PDF assembly with a hard size ceiling,
document-type gating) and, where the claims refer to it, the variant
`src/unnamed/part_001` (stored pixel dimensions and dimension-derived
page geometry, narrower mime whitelist).  External collaborators
(Telegram file retrieval, sharp normalization, pdfkit chunk emission)
are modelled as environment parameters, exactly at the points the code
calls out to them; everything the code itself computes is translated
directly.
-/

namespace ImagePdf

/-- Maximum number of images per user session, `MAX_IMAGES_PER_USER` in
index.js line 18. -/
def MAX_IMAGES_PER_USER : Nat := 50

/-- Hard ceiling on assembled document bytes, `MAX_PDF_SIZE` in index.js
line 162 (50 MiB). -/
def MAX_PDF_SIZE : Nat := 50 * 1024 * 1024

/-- Session time-to-live in milliseconds, `SESSION_TIMEOUT` in index.js
line 17 (one hour). -/
def SESSION_TIMEOUT : Nat := 60 * 60 * 1000

/-- A stored image in the index.js variant: `processImage` pushes the bare
normalized JPEG buffer (index.js line 142), nothing else. -/
structure StoredImage where
  bytes : List Nat
  deriving DecidableEq

/-- Environment for one ingestion attempt: the two external steps of
`processImage`.  `fetch` stands for `getFileLink` + `fetch` + `buffer()`
(index.js lines 130-132; `none` = network failure), `normalize` for
`sharp(imageBuffer).rotate().jpeg({quality: 90}).toBuffer()` (lines
134-140; `none` = decode failure). -/
structure IngestEnv where
  fetch : Option (List Nat)
  normalize : List Nat → Option (List Nat)

/-- Outcome classification of one `processImage` call. -/
inductive IngestResult where
  | capacityReached : IngestResult
  | fetchFailed : IngestResult
  | decodeFailed : IngestResult
  | accepted : Nat → IngestResult
  deriving DecidableEq

/-- Full outcome of one `processImage` call: the reply classification, the
session's image list afterwards, and whether the file fetch was reached
(used to state that the capacity gate does no network work). -/
structure IngestOutcome where
  result : IngestResult
  images : List StoredImage
  fetchAttempted : Bool

/-- Embedding of `processImage` (index.js lines 122-148): reject at
capacity before any fetch; otherwise fetch, normalize, and push the
normalized buffer, replying with the new count; on fetch or decode
failure the session is left untouched (the catch block only replies). -/
def processImage (env : IngestEnv) (images : List StoredImage) : IngestOutcome :=
  if MAX_IMAGES_PER_USER ≤ images.length then
    { result := .capacityReached, images := images, fetchAttempted := false }
  else
    match env.fetch with
    | none => { result := .fetchFailed, images := images, fetchAttempted := true }
    | some raw =>
      match env.normalize raw with
      | none => { result := .decodeFailed, images := images, fetchAttempted := true }
      | some processed =>
        { result := .accepted (images.length + 1),
          images := images ++ [{ bytes := processed }],
          fetchAttempted := true }

/-- The stored image a successful ingest under `env` appends: the
normalized bytes of the fetched payload. -/
def normOf (env : IngestEnv) : StoredImage :=
  { bytes := (env.fetch.bind env.normalize).getD [] }

/-- Driver folding a sequence of ingestion attempts over a session,
requiring every attempt to be accepted (`some` = all accepted, in order). -/
def ingestAll (envs : List IngestEnv) (images : List StoredImage) :
    Option (List StoredImage) :=
  match envs with
  | [] => some images
  | e :: rest =>
    match (processImage e images).result with
    | .accepted _ => ingestAll rest (processImage e images).images
    | _ => none

/-- One page of the assembled document in the index.js variant:
`pdfDoc.image(image, {fit: [500, 700], align: center, valign: center})`
(index.js lines 174-178) — the re-encoded bytes placed in a fixed
500 × 700 fit box, whatever the image's pixel dimensions. -/
structure PageSpec where
  content : List Nat
  fitW : Nat
  fitH : Nat
  deriving DecidableEq

/-- Environment for one assembly run: the external pdfkit/sharp behaviour.
`reencode` is `await sharp(imgBuffer).toBuffer()` (index.js line 173),
`chunksFor b` the sizes of the data chunks pdfkit emits while the page
holding bytes `b` (and the following `addPage`) is written, and
`finalChunks` the chunk sizes emitted by `pdfDoc.end()` finalization. -/
structure AssemblyEnv where
  reencode : List Nat → List Nat
  chunksFor : List Nat → List Nat
  finalChunks : List Nat

/-- Failure modes of the `/convert` handler that the code distinguishes:
the empty-session early return (index.js line 152) and the size-ceiling
throw inside the data handler (index.js line 168). -/
inductive ConvertError where
  | noImages : ConvertError
  | sizeLimitExceeded : ConvertError
  deriving DecidableEq

/-- The assembled document: its pages in order and its total byte size
(the length of `Buffer.concat(buffers)`). -/
structure PdfDoc where
  pages : List PageSpec
  size : Nat
  deriving DecidableEq

/-- Embedding of the `data` handler (index.js lines 164-170): each chunk
is appended to the running total, and the moment the total passes
`MAX_PDF_SIZE` the handler throws, so no later chunk is processed. -/
def emitChunks (chunks : List Nat) (total : Nat) : Except ConvertError Nat :=
  match chunks with
  | [] => .ok total
  | c :: rest =>
    if MAX_PDF_SIZE < total + c then .error .sizeLimitExceeded
    else emitChunks rest (total + c)

/-- Embedding of the page loop (index.js lines 172-183): pages are written
in session order, each feeding its chunks through the size gate; the
first overflow aborts the loop, emitting no further pages. -/
def emitPages (env : AssemblyEnv) (images : List StoredImage) (total : Nat) :
    Except ConvertError Nat :=
  match images with
  | [] => .ok total
  | img :: rest =>
    match emitChunks (env.chunksFor (env.reencode img.bytes)) total with
    | .error e => .error e
    | .ok t => emitPages env rest t

/-- The page produced for one stored image in the index.js variant. -/
def pageOf (env : AssemblyEnv) (img : StoredImage) : PageSpec :=
  { content := env.reencode img.bytes, fitW := 500, fitH := 700 }

/-- Building the document: write every page, then the `pdfDoc.end()`
finalization chunks, all through the size gate; on success the document
is the concatenation of everything emitted. -/
def buildPdf (env : AssemblyEnv) (images : List StoredImage) :
    Except ConvertError PdfDoc :=
  match emitPages env images 0 with
  | .error e => .error e
  | .ok t =>
    match emitChunks env.finalChunks t with
    | .error e => .error e
    | .ok t2 => .ok { pages := images.map (pageOf env), size := t2 }

/-- Embedding of the `/convert` command handler (index.js lines 151-202):
empty session short-circuits with the no-images reply; otherwise the
document is built and, only after a successful build and send, the
session is cleared (`ctx.session.images = []`, line 197); the catch
block replies but leaves the session as it was. -/
def convert (env : AssemblyEnv) (images : List StoredImage) :
    Except ConvertError PdfDoc × List StoredImage :=
  if images.length = 0 then (.error .noImages, images)
  else
    match buildPdf env images with
    | .error e => (.error e, images)
    | .ok d => (.ok d, [])

/-- A user session as index.js keeps it: the image list and the
`lastActive` millisecond timestamp stamped by the middleware. -/
structure Session where
  images : List StoredImage
  lastActive : Nat
  deriving DecidableEq

/-- The deletion test of `cleanupSessions` (index.js lines 26-27):
`!lastActive || now - lastActive > SESSION_TIMEOUT`, where a falsy
timestamp (absent or zero) also counts as expired. -/
def sessExpired (now : Nat) (s : Session) : Bool :=
  s.lastActive == 0 || decide (SESSION_TIMEOUT < now - s.lastActive)

/-- Embedding of `cleanupSessions` (index.js lines 21-34): every expired
entry is deleted from the store, the rest are kept. -/
def cleanupSessions (now : Nat) (store : List (Nat × Session)) :
    List (Nat × Session) :=
  store.filter fun p => ! sessExpired now p.2

/-- A stored image in the part_001 variant: `processImage` there pushes
`{buffer: processedImage, width: metadata.width, height: metadata.height}`
(part_001 lines 95-99). -/
structure StoredImageP1 where
  buffer : List Nat
  width : Nat
  height : Nat
  deriving DecidableEq

/-- Environment for one part_001 ingestion attempt: `fetch` stands for
`getFileLink` + `downloadImage` (part_001 lines 84-85), `normalize` for
the sharp rotate/JPEG re-encode (lines 88-91), and `dims` for
`sharp(processedImage).metadata()` (line 93) read on the normalized
bytes. -/
structure IngestEnvP1 where
  fetch : Option (List Nat)
  normalize : List Nat → Option (List Nat)
  dims : List Nat → Nat × Nat

/-- Outcome of one part_001 `processImage` call. -/
structure IngestOutcomeP1 where
  result : IngestResult
  images : List StoredImageP1

/-- Embedding of part_001's `processImage` (lines 78-106): capacity gate,
fetch, normalize, metadata lookup on the normalized bytes, then push of
the record carrying buffer plus pixel dimensions. -/
def processImageP1 (env : IngestEnvP1) (images : List StoredImageP1) :
    IngestOutcomeP1 :=
  if MAX_IMAGES_PER_USER ≤ images.length then
    { result := .capacityReached, images := images }
  else
    match env.fetch with
    | none => { result := .fetchFailed, images := images }
    | some raw =>
      match env.normalize raw with
      | none => { result := .decodeFailed, images := images }
      | some processed =>
        { result := .accepted (images.length + 1),
          images := images ++
            [{ buffer := processed,
               width := (env.dims processed).1,
               height := (env.dims processed).2 }] }

/-- Page geometry of the part_001 `/convert` loop (lines 146-154):
`pageWidth = img.width * 72 / 96`, `pageHeight = img.height * 72 / 96`,
computed from the stored dimensions only, in exact (JS float) arithmetic. -/
def pageSizeP1 (img : StoredImageP1) : ℚ × ℚ :=
  ((img.width : ℚ) * 72 / 96, (img.height : ℚ) * 72 / 96)

/-- Mime whitelist of the index.js document handler (line 106). -/
def validTypes : List String := ["image/jpeg", "image/png", "image/jpg"]

/-- Mime whitelist of the part_001 document handler (line 115): note it
lacks the type image slash jpg. -/
def validTypesP1 : List String := ["image/jpeg", "image/png"]

/-- Extension whitelist of both handlers. -/
def imageExts : List String := ["jpg", "jpeg", "png"]

/-- Lower-casing as `toLowerCase` on the ASCII names involved. -/
def lowerStr (s : String) : String :=
  String.mk (s.data.map Char.toLower)

/-- The last component of `split('.')`: the suffix after the last dot, or
the whole name when it has no dot (as JS `pop()` returns). -/
def lastSegment (cs : List Char) : List Char :=
  (cs.reverse.takeWhile (fun c => c ≠ '.')).reverse

/-- Embedding of `doc.file_name?.split('.').pop()?.toLowerCase()`
(index.js line 107, part_001 line 116): the last dot-separated component
of the file name, lower-cased; absent only when the name is absent. -/
def fileExtOf (name : Option String) : Option String :=
  name.map fun n => lowerStr (String.mk (lastSegment n.data))

/-- The extension clause `fileExt && [jpg, jpeg, png].includes(fileExt)`:
a present, truthy (non-empty) extension in the whitelist. -/
def extAccepted (name : Option String) : Bool :=
  match fileExtOf name with
  | none => false
  | some e => !(e == "") && imageExts.contains e

/-- Acceptance test of the index.js document handler (lines 109-110):
whitelisted mime type, or the extension fallback. -/
def docAccepted (mime : String) (name : Option String) : Bool :=
  validTypes.contains mime || extAccepted name

/-- Acceptance test of the part_001 document handler (line 118): same
shape, narrower mime whitelist. -/
def docAcceptedP1 (mime : String) (name : Option String) : Bool :=
  validTypesP1.contains mime || extAccepted name

/-- A successful `processImage` call appends exactly the normalized image
and nothing else, and its stored bytes really are the normalization of
the fetched payload. -/
lemma processImage_accepted (env : IngestEnv) (images : List StoredImage) (c : Nat)
    (h : (processImage env images).result = .accepted c) :
    (processImage env images).images = images ++ [normOf env] ∧
    env.fetch.bind env.normalize = some (normOf env).bytes := by
  unfold processImage at h ⊢
  by_cases hcap : MAX_IMAGES_PER_USER ≤ images.length
  · simp [hcap] at h
  · cases hf : env.fetch with
    | none => simp [hcap, hf] at h
    | some raw =>
      cases hn : env.normalize raw with
      | none => simp [hcap, hf, hn] at h
      | some proc =>
        constructor
        · simp [hcap, hf, hn, normOf]
        · simp [hf, hn, normOf]

/-- A fully accepted ingest sequence appends exactly the normalized images
in attempt order, each one genuinely the normalization of its fetch. -/
lemma ingestAll_sound (envs : List IngestEnv) :
    ∀ images out, ingestAll envs images = some out →
    out = images ++ envs.map normOf ∧
    ∀ e ∈ envs, e.fetch.bind e.normalize = some (normOf e).bytes := by
  induction envs with
  | nil =>
    intro images out h
    simp [ingestAll] at h
    simp [h]
  | cons e rest ih =>
    intro images out h
    unfold ingestAll at h
    cases hr : (processImage e images).result with
    | accepted c =>
      rw [hr] at h
      obtain ⟨himg, hfetch⟩ := processImage_accepted e images c hr
      obtain ⟨ho, hall⟩ := ih _ _ h
      rw [himg] at ho
      constructor
      · rw [ho]; simp
      · intro x hx
        rcases List.mem_cons.mp hx with h1 | h2
        · rw [h1]; exact hfetch
        · exact hall x h2
    | capacityReached => rw [hr] at h; simp at h
    | fetchFailed => rw [hr] at h; simp at h
    | decodeFailed => rw [hr] at h; simp at h

/-- The chunk-size gate keeps the running total at or below the ceiling. -/
lemma emitChunks_ok_le (chunks : List Nat) :
    ∀ total t, emitChunks chunks total = .ok t → total ≤ MAX_PDF_SIZE →
    t ≤ MAX_PDF_SIZE := by
  induction chunks with
  | nil =>
    intro total t h ht
    simp [emitChunks] at h
    omega
  | cons c rest ih =>
    intro total t h ht
    unfold emitChunks at h
    by_cases hlt : MAX_PDF_SIZE < total + c
    · rw [if_pos hlt] at h; simp at h
    · rw [if_neg hlt] at h
      exact ih (total + c) t h (by omega)

/-- The page loop keeps the running total at or below the ceiling. -/
lemma emitPages_ok_le (env : AssemblyEnv) (images : List StoredImage) :
    ∀ total t, emitPages env images total = .ok t → total ≤ MAX_PDF_SIZE →
    t ≤ MAX_PDF_SIZE := by
  induction images with
  | nil =>
    intro total t h ht
    simp [emitPages] at h
    omega
  | cons img rest ih =>
    intro total t h ht
    unfold emitPages at h
    cases hc : emitChunks (env.chunksFor (env.reencode img.bytes)) total with
    | error e => rw [hc] at h; simp at h
    | ok t1 =>
      rw [hc] at h
      simp at h
      exact ih t1 t h (emitChunks_ok_le _ total t1 hc ht)

/-- Once the chunk gate has aborted, any further chunks are irrelevant:
the abort is immediate. -/
lemma emitChunks_append_error (chunks more : List Nat) (e : ConvertError) :
    ∀ total, emitChunks chunks total = .error e →
    emitChunks (chunks ++ more) total = .error e := by
  induction chunks with
  | nil => intro total h; simp [emitChunks] at h
  | cons c rest ih =>
    intro total h
    rw [List.cons_append]
    unfold emitChunks at h ⊢
    by_cases hlt : MAX_PDF_SIZE < total + c
    · rw [if_pos hlt] at h ⊢; exact h
    · rw [if_neg hlt] at h ⊢; exact ih _ h

/-- Once the page loop has aborted, no later page is emitted: appending
further images leaves the error unchanged. -/
lemma emitPages_append_error (env : AssemblyEnv) (xs ys : List StoredImage)
    (e : ConvertError) :
    ∀ total, emitPages env xs total = .error e →
    emitPages env (xs ++ ys) total = .error e := by
  induction xs with
  | nil => intro total h; simp [emitPages] at h
  | cons img rest ih =>
    intro total h
    rw [List.cons_append]
    unfold emitPages at h ⊢
    cases hc : emitChunks (env.chunksFor (env.reencode img.bytes)) total with
    | error e2 => rw [hc] at h; exact h
    | ok t1 => rw [hc] at h; exact ih t1 h

/-- A successfully built document has one page per stored image, in order,
and a total size within the ceiling. -/
lemma buildPdf_ok (env : AssemblyEnv) (images : List StoredImage) (d : PdfDoc)
    (h : buildPdf env images = .ok d) :
    d.pages = images.map (pageOf env) ∧ d.size ≤ MAX_PDF_SIZE := by
  unfold buildPdf at h
  split at h
  · simp at h
  · rename_i t hp
    split at h
    · simp at h
    · rename_i t2 hf
      simp at h
      have h1 : t ≤ MAX_PDF_SIZE :=
        emitPages_ok_le env images 0 t hp (Nat.zero_le _)
      have h2 : t2 ≤ MAX_PDF_SIZE := emitChunks_ok_le env.finalChunks t t2 hf h1
      rw [← h]
      exact ⟨rfl, h2⟩

/-- A `/convert` call that returns a document got it from `buildPdf` and
cleared the session. -/
lemma convert_ok (env : AssemblyEnv) (images post : List StoredImage) (d : PdfDoc)
    (h : convert env images = (.ok d, post)) :
    buildPdf env images = .ok d ∧ post = [] := by
  unfold convert at h
  split at h
  · simp at h
  · split at h
    · simp at h
    · rename_i d2 hb
      simp at h
      obtain ⟨hd, hpost⟩ := h
      rw [hb, hd]
      exact ⟨rfl, hpost⟩

/-- Concrete assembly environment whose writer emits one one-byte chunk
per page and one finalization byte. -/
def envSmall : AssemblyEnv :=
  { reencode := fun b => b, chunksFor := fun _ => [1], finalChunks := [1] }

/-- Concrete assembly environment whose writer emits a 60000000-byte chunk
for every page, overflowing the 50 MiB ceiling at once. -/
def envBig : AssemblyEnv :=
  { reencode := fun b => b, chunksFor := fun _ => [60000000], finalChunks := [] }

/-- Concrete ingestion environment delivering payload [1] and normalizing
it to itself. -/
def ienv1 : IngestEnv := { fetch := some [1], normalize := fun r => some r }

/-- Concrete ingestion environment delivering payload [2] and normalizing
it to itself. -/
def ienv2 : IngestEnv := { fetch := some [2], normalize := fun r => some r }

/-- Concrete ingestion environment whose fetch fails. -/
def ienvF : IngestEnv := { fetch := none, normalize := fun _ => none }

/-- C1: if the running total of emitted document bytes exceeds
MAX_PDF_SIZE at any point, assembly aborts with the size-limit error the
moment the offending chunk is counted (later chunks and later pages are
never emitted) and `convert` returns that error with no document bytes;
consequently any document a successful `convert` returns is at most
MAX_PDF_SIZE bytes long. -/
theorem C1_sizeLimit (env : AssemblyEnv) :
    (∀ images d post, convert env images = (.ok d, post) →
       d.size ≤ MAX_PDF_SIZE) ∧
    (∀ chunks more total, emitChunks chunks total = .error .sizeLimitExceeded →
       emitChunks (chunks ++ more) total = .error .sizeLimitExceeded) ∧
    (∀ xs ys, emitPages env xs 0 = .error .sizeLimitExceeded →
       convert env (xs ++ ys) = (.error .sizeLimitExceeded, xs ++ ys)) := by
  refine ⟨?_, ?_, ?_⟩
  · intro images d post h
    exact (buildPdf_ok env images d (convert_ok env images post d h).1).2
  · intro chunks more total h
    exact emitChunks_append_error chunks more _ total h
  · intro xs ys h
    have hne : xs ≠ [] := by
      intro hx
      rw [hx] at h
      simp [emitPages] at h
    have hb : buildPdf env (xs ++ ys) = .error .sizeLimitExceeded := by
      unfold buildPdf
      rw [emitPages_append_error env xs ys _ 0 h]
    have hlen : ¬ (xs ++ ys).length = 0 := by
      rw [List.length_append]
      have := List.length_pos.mpr hne
      omega
    unfold convert
    rw [if_neg hlen, hb]

/-- C1 witness: a successful run stays within the ceiling, and a run
whose first page already overflows aborts with the size error and
returns no document, leaving the remaining page unemitted. -/
theorem C1_witness :
    ({ pages := [{ content := [1], fitW := 500, fitH := 700 }],
       size := 2 } : PdfDoc).size ≤ MAX_PDF_SIZE ∧
    convert envBig ([{ bytes := [1] }] ++ [{ bytes := [2] }]) =
      (.error .sizeLimitExceeded, [{ bytes := [1] }] ++ [{ bytes := [2] }]) := by
  constructor
  · exact (C1_sizeLimit envSmall).1 [{ bytes := [1] }] _ [] rfl
  · exact (C1_sizeLimit envBig).2.2 [{ bytes := [1] }] [{ bytes := [2] }] rfl

/-- C2 counterexample: the claim says that after any `convert` call that
found a non-empty session the image list is empty whether assembly
succeeded or failed; but on a size-limit failure the code's catch block
leaves `ctx.session.images` untouched, so the session still holds its
image. -/
theorem C2_counterexample :
    (convert envBig [{ bytes := [1] }]).2 = [{ bytes := [1] }] ∧
    ([{ bytes := [1] }] : List StoredImage) ≠ [] := by
  exact ⟨rfl, by simp⟩

/-- C2 amended: images are not drained up front — the session is cleared
exactly when assembly succeeds, and on any failure the image list is
exactly what it was before the call. -/
theorem C2_amended (env : AssemblyEnv) (images : List StoredImage) :
    (convert env images).2 =
      (match (convert env images).1 with
       | .ok _ => []
       | .error _ => images) := by
  unfold convert
  split
  · rfl
  · cases hb : buildPdf env images with
    | error e => rfl
    | ok d => rfl

/-- C3: a session already holding exactly MAX_IMAGES_PER_USER images makes
the next ingest attempt fail with the capacity reply, reach neither the
file fetch nor the decoder, and leave the image list unchanged. -/
theorem C3_capacity (env : IngestEnv) (images : List StoredImage)
    (h : images.length = MAX_IMAGES_PER_USER) :
    (processImage env images).result = .capacityReached ∧
    (processImage env images).images = images ∧
    (processImage env images).fetchAttempted = false := by
  unfold processImage
  rw [if_pos (by omega)]
  exact ⟨rfl, rfl, rfl⟩

/-- C3 witness: the 51st attempt on a 50-image session is rejected
without touching the session or the network. -/
theorem C3_witness :
    (processImage ienvF (List.replicate 50 { bytes := [] })).result =
      .capacityReached ∧
    (processImage ienvF (List.replicate 50 { bytes := [] })).images =
      List.replicate 50 { bytes := [] } ∧
    (processImage ienvF (List.replicate 50 { bytes := [] })).fetchAttempted =
      false :=
  C3_capacity ienvF _ (by simp [MAX_IMAGES_PER_USER])

/-- C4: after any sequence of n successful ingests (n at most
MAX_IMAGES_PER_USER) into a fresh session, the stored list is exactly
the normalized images in completion order, and a `convert` that returns
a document yields exactly n pages, one per stored image, in that same
order. -/
theorem C4_pages (envs : List IngestEnv) (aenv : AssemblyEnv)
    (images post : List StoredImage) (d : PdfDoc)
    (_hn : envs.length ≤ MAX_IMAGES_PER_USER)
    (hi : ingestAll envs [] = some images)
    (hc : convert aenv images = (.ok d, post)) :
    images = envs.map normOf ∧
    d.pages.length = envs.length ∧
    d.pages = (envs.map normOf).map (pageOf aenv) ∧
    ∀ e ∈ envs, e.fetch.bind e.normalize = some (normOf e).bytes := by
  obtain ⟨ho, hall⟩ := ingestAll_sound envs [] images hi
  simp at ho
  obtain ⟨hb, _⟩ := convert_ok aenv images post d hc
  obtain ⟨hp, _⟩ := buildPdf_ok aenv images d hb
  refine ⟨ho, ?_, ?_, hall⟩
  · rw [hp, ho]
    simp
  · rw [hp, ho]

/-- C4 witness: two successful ingests followed by a successful convert
give a two-page document in ingest order. -/
theorem C4_witness :
    ([{ bytes := [1] }, { bytes := [2] }] : List StoredImage) =
      [ienv1, ienv2].map normOf ∧
    ({ pages := [{ content := [1], fitW := 500, fitH := 700 },
                 { content := [2], fitW := 500, fitH := 700 }],
       size := 3 } : PdfDoc).pages.length = [ienv1, ienv2].length ∧
    ({ pages := [{ content := [1], fitW := 500, fitH := 700 },
                 { content := [2], fitW := 500, fitH := 700 }],
       size := 3 } : PdfDoc).pages =
      ([ienv1, ienv2].map normOf).map (pageOf envSmall) ∧
    ∀ e ∈ [ienv1, ienv2], e.fetch.bind e.normalize = some (normOf e).bytes :=
  C4_pages [ienv1, ienv2] envSmall [{ bytes := [1] }, { bytes := [2] }] []
    _ (by decide) rfl rfl

/-- C5: after any successful `convert` the session's image list is empty,
whatever it held beforehand, and an immediately repeated `convert` on
that session fails with the no-images reply and changes nothing. -/
theorem C5_clear (env env2 : AssemblyEnv) (images post : List StoredImage)
    (d : PdfDoc) (h : convert env images = (.ok d, post)) :
    post = [] ∧
    (convert env2 post).1 = .error .noImages ∧
    (convert env2 post).2 = post := by
  obtain ⟨_, hpost⟩ := convert_ok env images post d h
  subst hpost
  exact ⟨rfl, rfl, rfl⟩

/-- C5 witness: a concrete successful convert leaves an empty session and
a second convert fails with the no-images reply. -/
theorem C5_witness :
    ([] : List StoredImage) = [] ∧
    (convert envSmall ([] : List StoredImage)).1 = .error .noImages ∧
    (convert envSmall ([] : List StoredImage)).2 = [] :=
  C5_clear envSmall envSmall [{ bytes := [1] }] []
    { pages := [{ content := [1], fitW := 500, fitH := 700 }], size := 2 } rfl

/-- C6: `convert` on an empty session always fails with the no-images
reply, produces no document bytes, and leaves the session exactly as it
was (an empty list), so the user's next ingest is unaffected. -/
theorem C6_noImages (env : AssemblyEnv) :
    convert env [] = (.error .noImages, []) := rfl

/-- C7: an ingest attempt mutates the session only when fetch,
normalization and append all succeed; on a fetch failure, a decode
failure, or the capacity rejection the image list is exactly what it was
before, and on success exactly the normalization of the fetched payload
is appended. -/
theorem C7_frame (env : IngestEnv) (images : List StoredImage) :
    ((processImage env images).result = .fetchFailed ∨
       (processImage env images).result = .decodeFailed →
     (processImage env images).images = images) ∧
    ((processImage env images).result = .capacityReached →
     (processImage env images).images = images) ∧
    ∀ c, (processImage env images).result = .accepted c →
      (processImage env images).images = images ++ [normOf env] ∧
      env.fetch.bind env.normalize = some (normOf env).bytes := by
  refine ⟨?_, ?_, ?_⟩
  · intro h
    unfold processImage at h ⊢
    by_cases hcap : MAX_IMAGES_PER_USER ≤ images.length
    · simp [hcap]
    · cases hf : env.fetch with
      | none => simp [hcap, hf]
      | some raw =>
        cases hn : env.normalize raw with
        | none => simp [hcap, hf, hn]
        | some proc => simp [hcap, hf, hn] at h
  · intro h
    unfold processImage at h ⊢
    by_cases hcap : MAX_IMAGES_PER_USER ≤ images.length
    · simp [hcap]
    · cases hf : env.fetch with
      | none => simp [hcap, hf] at h
      | some raw =>
        cases hn : env.normalize raw with
        | none => simp [hcap, hf, hn] at h
        | some proc => simp [hcap, hf, hn] at h
  · intro c h
    exact processImage_accepted env images c h

/-- C7 witness: a failed fetch leaves the (empty) session empty. -/
theorem C7_witness : (processImage ienvF []).images = [] :=
  (C7_frame ienvF []).1 (Or.inl rfl)

/-- C8: for every session in the store with a recorded activity timestamp
(the middleware always stamps `Date.now()`, which is positive), the
sweep keeps it if and only if it was last touched within
SESSION_TIMEOUT of the sweep time — equivalently it is removed exactly
when it is older than the TTL. -/
theorem C8_sweep (now : Nat) (store : List (Nat × Session)) (uid : Nat)
    (s : Session) (hmem : (uid, s) ∈ store) (hpos : 0 < s.lastActive) :
    ((uid, s) ∈ cleanupSessions now store ↔
      now - s.lastActive ≤ SESSION_TIMEOUT) := by
  unfold cleanupSessions sessExpired
  rw [List.mem_filter]
  simp [hmem]
  omega

/-- Concrete session for the sweep witness. -/
def sessW : Session := { images := [], lastActive := 5 }

/-- C8 witness: a session one millisecond old survives the sweep. -/
theorem C8_witness : (1, sessW) ∈ cleanupSessions 6 [(1, sessW)] :=
  (C8_sweep 6 [(1, sessW)] 1 sessW (by simp) (by decide)).mpr (by decide)

/-- C9 counterexample: in the index.js variant the record a successful
ingest stores is the bare normalized buffer — it carries no pixel
dimensions — and assembly gives every page the same fixed 500 × 700 fit
box whatever the image is, so page geometry is not computed from stored
per-image dimensions; the dimension-derived geometry (where halving the
stored dimensions changes the page size) exists only in the part_001
variant. -/
theorem C9_counterexample :
    (processImage ienv1 []).images = [{ bytes := [1] }] ∧
    (convert envSmall [{ bytes := [7] }]).1 =
      .ok { pages := [{ content := [7], fitW := 500, fitH := 700 }], size := 2 } ∧
    (convert envSmall [{ bytes := [9, 9] }]).1 =
      .ok { pages := [{ content := [9, 9], fitW := 500, fitH := 700 }],
            size := 2 } ∧
    pageSizeP1 { buffer := [7], width := 96, height := 96 } ≠
      pageSizeP1 { buffer := [7], width := 192, height := 192 } := by
  refine ⟨rfl, rfl, rfl, ?_⟩
  simp [pageSizeP1, Prod.ext_iff]
  norm_num

/-- C9 amended: in the part_001 variant every successfully ingested
record carries the pixel width and height read from the normalized
bytes at ingestion time, and the assembly page geometry is a function of
those stored dimensions alone — two stored images with equal dimensions
get equal page sizes regardless of their bytes, so no re-decoding is
needed; the index.js variant instead stores bare buffers and uses a
fixed 500 × 700 fit box. -/
theorem C9_dimensions (env : IngestEnvP1) (images : List StoredImageP1)
    (c : Nat) (h : (processImageP1 env images).result = .accepted c) :
    (∃ proc, env.fetch.bind env.normalize = some proc ∧
      (processImageP1 env images).images = images ++
        [{ buffer := proc, width := (env.dims proc).1,
           height := (env.dims proc).2 }]) ∧
    ∀ i1 i2 : StoredImageP1, i1.width = i2.width → i1.height = i2.height →
      pageSizeP1 i1 = pageSizeP1 i2 := by
  constructor
  · unfold processImageP1 at h ⊢
    by_cases hcap : MAX_IMAGES_PER_USER ≤ images.length
    · simp [hcap] at h
    · cases hf : env.fetch with
      | none => simp [hcap, hf] at h
      | some raw =>
        cases hn : env.normalize raw with
        | none => simp [hcap, hf, hn] at h
        | some proc =>
          refine ⟨proc, ?_, ?_⟩
          · simp [hf, hn]
          · simp [hcap, hf, hn]
  · intro i1 i2 hw hh
    unfold pageSizeP1
    rw [hw, hh]

/-- Concrete part_001 ingestion environment: payload [5], identity
normalization, metadata 8 × 6. -/
def envP1W : IngestEnvP1 :=
  { fetch := some [5], normalize := fun r => some r, dims := fun _ => (8, 6) }

/-- C9 witness: a concrete part_001 ingest stores the normalized bytes
with their metadata dimensions, and two images with equal stored
dimensions but different bytes get the same page size. -/
theorem C9_witness :
    (∃ proc, envP1W.fetch.bind envP1W.normalize = some proc ∧
      (processImageP1 envP1W []).images = [] ++
        [{ buffer := proc, width := (envP1W.dims proc).1,
           height := (envP1W.dims proc).2 }]) ∧
    pageSizeP1 { buffer := [1], width := 8, height := 6 } =
      pageSizeP1 { buffer := [2], width := 8, height := 6 } := by
  have h := C9_dimensions envP1W [] 1 rfl
  exact ⟨h.1, h.2 _ _ rfl rfl⟩

/-- C10 counterexample: the claim says a document whose declared mime
type is image slash jpg is always ingested, but the part_001 handler's
whitelist omits that type, so with no file name to fall back on it is
rejected there, while the index.js handler accepts it. -/
theorem C10_counterexample :
    docAcceptedP1 "image/jpg" none = false ∧
    docAccepted "image/jpg" none = true := by
  constructor <;> decide

/-- C10 amended: a document is ingested exactly when its declared mime
type is whitelisted or its file name's lower-cased final dot-separated
component is jpg, jpeg or png, and rejected only when both checks fail;
the index.js whitelist is image slash jpeg, png and jpg as claimed,
while the part_001 whitelist omits image slash jpg, which there is
accepted only through the extension fallback. -/
theorem C10_gate (mime : String) (name : Option String) :
    (docAccepted mime name = true ↔
      mime ∈ validTypes ∨ extAccepted name = true) ∧
    (docAcceptedP1 mime name = true ↔
      mime ∈ validTypesP1 ∨ extAccepted name = true) := by
  constructor <;> simp [docAccepted, docAcceptedP1]

/-- C10 witness: a document with a non-image mime type but a .JPG file
name is accepted through the extension fallback. -/
theorem C10_witness :
    docAccepted "application/octet-stream" (some "scan.JPG") = true :=
  (C10_gate "application/octet-stream" (some "scan.JPG")).1.mpr
    (Or.inr (by decide))

end ImagePdf
